import Mathlib

/-!
Shallow embedding of the hypr-ai-course configuration service:
the Application/Configuration data model, the Express controllers of the
module1 demo server (`ApplicationController`, `ConfigurationController`),
the per-route validation of the applications router, the UI test mock API
handlers, the `CreateAppForm` client-side validation, and the `ConfigClient`
HTTP wrapper.  Timestamps are modelled as natural numbers supplied by the
caller (`now`); SERIAL ids as a `nextId` counter; SQL constraint violations
(unique name, foreign key) as the explicit checks the store performs.
-/

namespace ConfigService

/-- JSON values, as stored in a document-shape configuration
(`config: Record<string, any>`).  Numbers are modelled as integers since no
code under verification computes with them. -/
inductive Json where
  | null : Json
  | bool (b : Bool) : Json
  | num (n : Int) : Json
  | str (s : String) : Json
  | arr (elems : List Json) : Json
  | obj (fields : List (String × Json)) : Json

/-- Look a key up in a JSON value: the first field with that name when the
value is an object, `none` otherwise. -/
def Json.objLookup (j : Json) (k : String) : Option Json :=
  match j with
  | .obj fields => (fields.find? (fun p => p.1 = k)).map (fun p => p.2)
  | _ => none

/-- One row of the `applications` table (migration `001_initial_schema.sql`):
SERIAL id, unique name, nullable description, timestamps. -/
structure AppRow where
  id : Nat
  name : String
  description : Option String
  created_at : Nat
  updated_at : Nat
deriving DecidableEq, Repr

/-- The `applications` table: its rows plus the SERIAL sequence counter. -/
structure AppsTable where
  rows : List AppRow
  nextId : Nat
deriving DecidableEq, Repr

/-- Outcome of a controller action: `res.status(s).json(value)` on success or
`res.status(s).json({error})` on failure. -/
inductive ApiResult (α : Type) where
  | ok (status : Nat) (value : α) : ApiResult α
  | err (status : Nat) (error : String) : ApiResult α
deriving DecidableEq, Repr

/-- Embeds `ApplicationController.create` (post-validation path): INSERT the
new row; a unique violation on `name` (Postgres error 23505, from the
`UNIQUE` constraint in the migration) is mapped to 409. -/
def appCreate (t : AppsTable) (now : Nat) (name : String)
    (description : Option String) : AppsTable × ApiResult AppRow :=
  if t.rows.any (fun r => r.name = name) then
    (t, .err 409 "Application with this name already exists")
  else
    let row : AppRow := ⟨t.nextId, name, description, now, now⟩
    (⟨t.rows ++ [row], t.nextId + 1⟩, .ok 201 row)

/-- Embeds `ApplicationController.update`: `UPDATE applications SET
name = COALESCE($1, name), description = COALESCE($2, description),
updated_at = CURRENT_TIMESTAMP WHERE id = $3 RETURNING *`; zero rows
updated is 404, a unique violation on the new name is 409. -/
def appUpdate (t : AppsTable) (now : Nat) (id : Nat) (newName : Option String)
    (newDescription : Option String) : AppsTable × ApiResult AppRow :=
  match t.rows.find? (fun r => r.id = id) with
  | none => (t, .err 404 "Application not found")
  | some r =>
    let n := newName.getD r.name
    let d := match newDescription with
      | some d => some d
      | none => r.description
    if t.rows.any (fun x => x.id ≠ id ∧ x.name = n) then
      (t, .err 409 "Application with this name already exists")
    else
      let r' : AppRow := { r with name := n, description := d, updated_at := now }
      (⟨t.rows.map (fun x => if x.id = id then r' else x), t.nextId⟩, .ok 200 r')

/-- Embeds `ApplicationController.getById`: `SELECT * FROM applications WHERE
id = $1`; zero rows is 404. -/
def appGetById (t : AppsTable) (id : Nat) : ApiResult AppRow :=
  match t.rows.find? (fun r => r.id = id) with
  | none => .err 404 "Application not found"
  | some r => .ok 200 r

/-- The `ORDER BY created_at DESC` relation used by the list endpoints. -/
def createdDesc (a b : AppRow) : Prop := b.created_at ≤ a.created_at

instance : DecidableRel createdDesc :=
  fun a b => inferInstanceAs (Decidable (b.created_at ≤ a.created_at))

instance : IsTotal AppRow createdDesc :=
  ⟨fun a b => (Nat.le_total b.created_at a.created_at).imp id id⟩

instance : IsTrans AppRow createdDesc :=
  ⟨fun _ _ _ hab hbc => Nat.le_trans hbc hab⟩

/-- Body of the paginated list response:
`{data, pagination:{page, limit, total, totalPages}}`. -/
structure PagedApps where
  data : List AppRow
  page : Nat
  limit : Nat
  total : Nat
  totalPages : Nat
deriving DecidableEq, Repr

/-- Embeds `ApplicationController.getAll`: `offset = (page-1)*limit`;
`SELECT * FROM applications ORDER BY created_at DESC LIMIT $1 OFFSET $2`;
`total` from `SELECT COUNT(*)`; `totalPages = Math.ceil(total/limit)`
(written `(total + limit - 1) / limit` over naturals, equal to it for
`limit ≥ 1`). -/
def appGetAll (t : AppsTable) (page limit : Nat) : PagedApps :=
  let offset := (page - 1) * limit
  let sorted := List.insertionSort createdDesc t.rows
  let total := t.rows.length
  { data := (sorted.drop offset).take limit
    page := page
    limit := limit
    total := total
    totalPages := (total + limit - 1) / limit }

/-- One row of the `configurations` table (keyed-row shape from the
migration): `UNIQUE(application_id, key, environment)`, `value` nullable,
foreign key `application_id` with `ON DELETE CASCADE`. -/
structure ConfigRow where
  id : Nat
  application_id : Nat
  key : String
  value : Option String
  environment : String
  created_at : Nat
  updated_at : Nat
deriving DecidableEq, Repr

/-- The whole relational store of the demo service: both tables. -/
structure Db where
  apps : AppsTable
  configs : List ConfigRow
  nextConfigId : Nat
deriving DecidableEq, Repr

/-- Embeds `ConfigurationController.getByApplication`: the application
existence check (`SELECT id FROM applications WHERE id = $1`) runs first and
yields 404; only then the filtered, paginated query and the count query run.
The response carries the matching page of rows and the filtered total. -/
def configsGetByApplication (db : Db) (applicationId : Nat)
    (environment : Option String) (page limit : Nat) :
    ApiResult (List ConfigRow × Nat) :=
  if db.apps.rows.any (fun r => r.id = applicationId) then
    let base := db.configs.filter (fun c =>
      c.application_id = applicationId &&
        match environment with
        | some env => c.environment = env
        | none => true)
    let offset := (page - 1) * limit
    let items := ((List.insertionSort
      (fun a b => b.created_at ≤ a.created_at) base).drop offset).take limit
    .ok 200 (items, base.length)
  else
    .err 404 "Application not found"

/-- Modelled from the spec: `delete(id) → () | Error{NotFound}` — the DELETE
endpoint exists only in repository variants whose server code is not under
`src/`; its effect on the store follows the migration DDL that IS under
`src/`: `application_id INTEGER NOT NULL REFERENCES applications(id) ON
DELETE CASCADE`, so deleting an application row also deletes its
configuration rows. -/
def deleteApplication (db : Db) (id : Nat) : Db × ApiResult Unit :=
  if db.apps.rows.any (fun r => r.id = id) then
    (⟨⟨db.apps.rows.filter (fun r => ¬ r.id = id), db.apps.nextId⟩,
      db.configs.filter (fun c => ¬ c.application_id = id),
      db.nextConfigId⟩,
     .ok 204 ())
  else
    (db, .err 404 "Application not found")

/-- Body of a document-shape configuration response
(`{application_id, config}`), as returned by the mock API handlers and the
module2 service. -/
structure ConfigurationResponse where
  application_id : String
  config : Json

/-- The mock `mockConfigurations` record: a map from application id to its
stored document-shape configuration. -/
def MockConfigStore : Type := String → Option ConfigurationResponse

/-- Embeds the mock handler for `PUT /api/v1/applications/:id/config`
(`api-handlers.ts`): builds `{application_id: params.id, config:
data.config}`, stores it under the id (plain assignment — a full
replacement, no merge), and returns it with the default 200 status. -/
def putConfigHandler (store : MockConfigStore) (id : String) (doc : Json) :
    MockConfigStore × (Nat × ConfigurationResponse) :=
  let cfg : ConfigurationResponse := ⟨id, doc⟩
  (fun k => if k = id then some cfg else store k, (200, cfg))

/-- Modelled from the spec: `upsert(applicationId, configObject) →
Configuration | Error{NotFound if applicationId unknown}` — the
document-shape service backend (the module2 `svc/` directory) is not under
`src/`; only its UI test mocks and client are.  The upsert replaces the
entire stored document when the application exists and fails with NotFound,
changing nothing, when it does not. -/
def specUpsert (apps : List String) (store : MockConfigStore) (id : String)
    (doc : Json) : MockConfigStore × ApiResult ConfigurationResponse :=
  if id ∈ apps then
    let cfg : ConfigurationResponse := ⟨id, doc⟩
    (fun k => if k = id then some cfg else store k, .ok 200 cfg)
  else
    (store, .err 404 "Application not found")

/-- Embeds `createApplicationValidation` from the applications router:
`body('name').isString().isLength({min: 1, max: 255})` — the name must be a
string of 1 to 255 characters.  No charset rule is present server-side. -/
def serverNameValid (name : String) : Bool :=
  1 ≤ name.length && name.length ≤ 255

/-- Embeds the demo server's `POST /applications` route: the validation
middleware first (an invalid name is a 400 before any store access), then
`ApplicationController.create`. -/
def postApplication (t : AppsTable) (now : Nat) (name : String)
    (description : Option String) : AppsTable × ApiResult AppRow :=
  if serverNameValid name then appCreate t now name description
  else (t, .err 400 "Validation failed")

/-- Characters admitted by the UI form's name pattern `[a-zA-Z0-9_\-]`. -/
def isNameChar (c : Char) : Bool :=
  ('a' ≤ c && c ≤ 'z') || ('A' ≤ c && c ≤ 'Z') ||
    ('0' ≤ c && c ≤ '9') || c = '_' || c = '-'

/-- Whitespace as the JS `String.prototype.trim` removes it (restricted to
the ASCII whitespace that can actually occur in these inputs). -/
def isWhitespaceChar (c : Char) : Bool :=
  c = ' ' || c = '\t' || c = '\n' || c = '\r'

/-- Embeds the name branch of `CreateAppForm.validateForm`:
`!name.trim()` (the trimmed name is empty, i.e. every character is
whitespace) is the "required" rejection; otherwise the name must fully match
`^[a-zA-Z0-9_\-]+$`. -/
def uiNameValid (name : String) : Bool :=
  if name.data.all isWhitespaceChar then false
  else !name.data.isEmpty && name.data.all isNameChar

/-- Result type of every `ConfigClient` method (`ApiResponse<T>` in
`types/common.ts`): `{success: true, data}` or `{success: false, error}`.
The `data` is `Option` because a 204 response carries `undefined`. -/
inductive ApiResponse (α : Type) where
  | success (data : Option α) : ApiResponse α
  | failure (error : String) : ApiResponse α
deriving DecidableEq, Repr

/-- What a single `fetch` inside `ConfigClient.request` can come back with:
a resolved HTTP response (carrying its status, the `{detail}` the body parses
to when not ok, and the data it parses to when ok), a rejection with a JS
`Error` (its `name` and `message`), or a rejection with a non-`Error`
value. -/
inductive FetchOutcome (α : Type) where
  | resolved (status : Nat) (errDetail : String) (body : α) : FetchOutcome α
  | thrown (errName : String) (message : String) : FetchOutcome α
  | thrownNonError : FetchOutcome α

/-- The `Response.ok` accessor: status in the inclusive range 200–299. -/
def responseOk (status : Nat) : Bool := 200 ≤ status && status < 300

/-- The `message.includes('aborted')` test. -/
def containsAborted (message : String) : Bool :=
  decide ("aborted".data <:+: message.data)

/-- Embeds `ConfigClient.request`: not-ok responses become
`{success: false, error: errorBody.detail}`, a 204 becomes success with
`undefined` data, other ok responses success with the parsed body; a thrown
`Error` named `AbortError` or whose message includes `aborted` becomes the
prefixed abort failure, any other `Error` its own message, and a non-`Error`
throw the generic network failure.  Every branch returns a value. -/
def clientRequest {α : Type} (outcome : FetchOutcome α) : ApiResponse α :=
  match outcome with
  | .resolved status errDetail body =>
    if !responseOk status then .failure errDetail
    else if status = 204 then .success none
    else .success (some body)
  | .thrown errName message =>
    if errName = "AbortError" || containsAborted message then
      .failure ("Request aborted: " ++ message)
    else .failure message
  | .thrownNonError => .failure "Network error"

/-- C4: creating an Application whose name no existing row uses succeeds
with 201 and appends the new row; an immediately following create with the
same name fails with 409 Conflict, and the table — in particular the first
row — is unchanged by the second call. -/
theorem create_duplicate_name_conflict (t : AppsTable) (now now2 : Nat)
    (name : String) (d d2 : Option String)
    (hfresh : ∀ r ∈ t.rows, r.name ≠ name) :
    appCreate t now name d =
      (⟨t.rows ++ [⟨t.nextId, name, d, now, now⟩], t.nextId + 1⟩,
        .ok 201 ⟨t.nextId, name, d, now, now⟩) ∧
    appCreate (appCreate t now name d).1 now2 name d2 =
      ((appCreate t now name d).1,
        .err 409 "Application with this name already exists") ∧
    (⟨t.nextId, name, d, now, now⟩ : AppRow) ∈
      (appCreate (appCreate t now name d).1 now2 name d2).1.rows := by
  have hany : (t.rows.any fun r => r.name = name) = false := by
    simp only [List.any_eq_false, decide_eq_true_eq]
    exact hfresh
  have h1 : appCreate t now name d =
      (⟨t.rows ++ [⟨t.nextId, name, d, now, now⟩], t.nextId + 1⟩,
        ApiResult.ok 201 ⟨t.nextId, name, d, now, now⟩) := by
    simp [appCreate, hany]
  have hany2 : ((t.rows ++ [(⟨t.nextId, name, d, now, now⟩ : AppRow)]).any
      fun r => r.name = name) = true := by
    simp
  have h2 : appCreate (appCreate t now name d).1 now2 name d2 =
      ((appCreate t now name d).1,
        ApiResult.err 409 "Application with this name already exists") := by
    rw [h1]
    simp [appCreate, hany2]
  refine ⟨h1, h2, ?_⟩
  rw [h2, h1]
  simp

/-- C4 witness: the two-creates scenario at a concrete table and name. -/
theorem create_duplicate_name_conflict_w :
    appCreate ⟨[], 1⟩ 5 "TestApp" (some "first") =
      (⟨[⟨1, "TestApp", some "first", 5, 5⟩], 2⟩,
        .ok 201 ⟨1, "TestApp", some "first", 5, 5⟩) ∧
    appCreate (appCreate ⟨[], 1⟩ 5 "TestApp" (some "first")).1 6 "TestApp" none =
      ((appCreate ⟨[], 1⟩ 5 "TestApp" (some "first")).1,
        .err 409 "Application with this name already exists") ∧
    (⟨1, "TestApp", some "first", 5, 5⟩ : AppRow) ∈
      (appCreate (appCreate ⟨[], 1⟩ 5 "TestApp" (some "first")).1 6
        "TestApp" none).1.rows :=
  create_duplicate_name_conflict ⟨[], 1⟩ 5 6 "TestApp" (some "first") none
    (by intro r hr; cases hr)

/-- C3: partial update has COALESCE semantics — with only a name supplied
the description keeps its previous value, with only a description supplied
the name keeps its previous value — and renaming to a name already used by
a different Application yields 409 Conflict. -/
theorem update_coalesce_and_rename_conflict (t : AppsTable) (now id : Nat)
    (r : AppRow) (hfind : t.rows.find? (fun x => x.id = id) = some r) :
    (∀ n, (∀ x ∈ t.rows, x.id ≠ id → x.name ≠ n) →
      appUpdate t now id (some n) none =
        (⟨t.rows.map (fun x => if x.id = id then
            ⟨r.id, n, r.description, r.created_at, now⟩ else x), t.nextId⟩,
          .ok 200 ⟨r.id, n, r.description, r.created_at, now⟩)) ∧
    (∀ d, (∀ x ∈ t.rows, x.id ≠ id → x.name ≠ r.name) →
      appUpdate t now id none (some d) =
        (⟨t.rows.map (fun x => if x.id = id then
            ⟨r.id, r.name, some d, r.created_at, now⟩ else x), t.nextId⟩,
          .ok 200 ⟨r.id, r.name, some d, r.created_at, now⟩)) ∧
    (∀ n dOpt, (∃ x ∈ t.rows, x.id ≠ id ∧ x.name = n) →
      appUpdate t now id (some n) dOpt =
        (t, .err 409 "Application with this name already exists")) := by
  refine ⟨?_, ?_, ?_⟩
  · intro n hn
    simp [appUpdate, hfind]
    exact hn
  · intro d hd
    simp [appUpdate, hfind]
    exact hd
  · intro n dOpt hex
    cases dOpt <;>
      (simp [appUpdate, hfind]; exact hex)

/-- C3 witness: COALESCE behaviour and the rename conflict on a concrete
two-row table. -/
theorem update_coalesce_and_rename_conflict_w :
    appUpdate ⟨[⟨1, "a", some "da", 0, 0⟩, ⟨2, "b", some "db", 1, 1⟩], 3⟩
        7 1 (some "c") none =
      (⟨[⟨1, "c", some "da", 0, 7⟩, ⟨2, "b", some "db", 1, 1⟩], 3⟩,
        .ok 200 ⟨1, "c", some "da", 0, 7⟩) ∧
    appUpdate ⟨[⟨1, "a", some "da", 0, 0⟩, ⟨2, "b", some "db", 1, 1⟩], 3⟩
        7 1 none (some "dd") =
      (⟨[⟨1, "a", some "dd", 0, 7⟩, ⟨2, "b", some "db", 1, 1⟩], 3⟩,
        .ok 200 ⟨1, "a", some "dd", 0, 7⟩) ∧
    appUpdate ⟨[⟨1, "a", some "da", 0, 0⟩, ⟨2, "b", some "db", 1, 1⟩], 3⟩
        7 1 (some "b") none =
      (⟨[⟨1, "a", some "da", 0, 0⟩, ⟨2, "b", some "db", 1, 1⟩], 3⟩,
        .err 409 "Application with this name already exists") := by
  have h := update_coalesce_and_rename_conflict
    ⟨[⟨1, "a", some "da", 0, 0⟩, ⟨2, "b", some "db", 1, 1⟩], 3⟩ 7 1
    ⟨1, "a", some "da", 0, 0⟩ (by decide)
  refine ⟨?_, ?_, ?_⟩
  · have := h.1 "c" (by decide)
    simpa using this
  · have := h.2.1 "dd" (by decide)
    simpa using this
  · have := h.2.2 "b" none (by decide)
    simpa using this

/-- C10: listing the configurations of an application id that matches no
Application row returns 404 NotFound for every environment filter, page and
limit — never an empty 200 page. -/
theorem configs_list_unknown_app_not_found (db : Db) (appId : Nat)
    (env : Option String) (page limit : Nat)
    (h : ∀ r ∈ db.apps.rows, r.id ≠ appId) :
    configsGetByApplication db appId env page limit =
      .err 404 "Application not found" := by
  have hany : (db.apps.rows.any fun r => r.id = appId) = false := by
    simp only [List.any_eq_false, decide_eq_true_eq]
    exact h
  simp [configsGetByApplication, hany]

/-- C10 witness: a store holding one application (id 1) and one of its
configuration rows still answers 404 for the unknown id 2. -/
theorem configs_list_unknown_app_not_found_w :
    configsGetByApplication
      ⟨⟨[⟨1, "a", none, 0, 0⟩], 2⟩, [⟨1, 1, "k", some "v", "dev", 0, 0⟩], 2⟩
      2 (some "dev") 1 10 = .err 404 "Application not found" :=
  configs_list_unknown_app_not_found
    ⟨⟨[⟨1, "a", none, 0, 0⟩], 2⟩, [⟨1, 1, "k", some "v", "dev", 0, 0⟩], 2⟩
    2 (some "dev") 1 10 (by decide)

/-- C9: an update that supplies neither name nor description succeeds with
200, leaves both fields at their previous values while refreshing
`updated_at`; and no successful update can make `description` null unless
it already was — a missing input is coalesced to the previous value and a
supplied one is non-null. -/
theorem empty_update_preserves_fields (t : AppsTable) (now id : Nat)
    (r : AppRow) (hfind : t.rows.find? (fun x => x.id = id) = some r)
    (huniq : ∀ x ∈ t.rows, x.name = r.name → x.id = id) :
    (appUpdate t now id none none).2 =
      .ok 200 ⟨r.id, r.name, r.description, r.created_at, now⟩ ∧
    (∀ nOpt dOpt t' r', appUpdate t now id nOpt dOpt = (t', .ok 200 r') →
      r'.description = none → r.description = none) := by
  constructor
  · have hcond : ¬ ∃ x ∈ t.rows, ¬x.id = id ∧ x.name = r.name := by
      rintro ⟨x, hx, hne, heq⟩
      exact hne (huniq x hx heq)
    simp [appUpdate, hfind, hcond]
  · intro nOpt dOpt t' r' h hdesc
    cases dOpt with
    | some d =>
      simp only [appUpdate, hfind] at h
      split at h
      · simp at h
      · have h2 := congrArg Prod.snd h
        simp only [ApiResult.ok.injEq] at h2
        rw [← h2.2] at hdesc
        simp at hdesc
    | none =>
      simp only [appUpdate, hfind] at h
      split at h
      · simp at h
      · have h2 := congrArg Prod.snd h
        simp only [ApiResult.ok.injEq] at h2
        rw [← h2.2] at hdesc
        exact hdesc

/-- C9 witness: the empty update on a one-row table, and the
description-stays-null consequence at the same row. -/
theorem empty_update_preserves_fields_w :
    (appUpdate ⟨[⟨1, "a", none, 0, 0⟩], 2⟩ 9 1 none none).2 =
      .ok 200 ⟨1, "a", none, 0, 9⟩ ∧
    (⟨1, "a", none, 0, 0⟩ : AppRow).description = none := by
  have h := empty_update_preserves_fields ⟨[⟨1, "a", none, 0, 0⟩], 2⟩ 9 1
    ⟨1, "a", none, 0, 0⟩ (by decide) (by decide)
  exact ⟨h.1, h.2 none none ⟨[⟨1, "a", none, 0, 9⟩], 2⟩ ⟨1, "a", none, 0, 9⟩
    (by decide) (by decide)⟩

/-- C6: after a successful DELETE of an Application, GET of that
Application is 404, listing its configurations is 404 (they are
unreachable), no stored configuration row still references the deleted id,
and the foreign-key invariant — every configuration's `application_id`
references an existing Application — is preserved by the deletion. -/
theorem delete_cascades (db : Db) (id : Nat) (db' : Db)
    (h : deleteApplication db id = (db', .ok 204 ())) :
    appGetById db'.apps id = .err 404 "Application not found" ∧
    (∀ env page limit, configsGetByApplication db' id env page limit =
      .err 404 "Application not found") ∧
    (∀ c ∈ db'.configs, c.application_id ≠ id) ∧
    ((∀ c ∈ db.configs, ∃ a ∈ db.apps.rows, a.id = c.application_id) →
      ∀ c ∈ db'.configs, ∃ a ∈ db'.apps.rows, a.id = c.application_id) := by
  unfold deleteApplication at h
  by_cases hex : (db.apps.rows.any fun r => r.id = id) = true
  · rw [if_pos hex] at h
    have hdb : db' =
        ⟨⟨db.apps.rows.filter (fun r => ¬ r.id = id), db.apps.nextId⟩,
          db.configs.filter (fun c => ¬ c.application_id = id),
          db.nextConfigId⟩ :=
      (congrArg Prod.fst h).symm
    subst hdb
    refine ⟨?_, ?_, ?_, ?_⟩
    · have hnone : (db.apps.rows.filter (fun r => ¬ r.id = id)).find?
          (fun x => x.id = id) = none := by
        rw [List.find?_eq_none]
        intro x hx
        simpa using List.of_mem_filter hx
      simp only [appGetById]
      rw [hnone]
    · intro env page limit
      have hany : ((db.apps.rows.filter (fun r => ¬ r.id = id)).any
          fun r => r.id = id) = false := by
        rw [List.any_eq_false]
        intro x hx
        simpa using List.of_mem_filter hx
      simp only [configsGetByApplication, hany]
      simp
    · intro c hc
      simpa using List.of_mem_filter hc
    · intro hinv c hc
      have hc1 : c ∈ db.configs := List.mem_of_mem_filter hc
      have hc2 : ¬ c.application_id = id := by
        simpa using List.of_mem_filter hc
      obtain ⟨a, ha, haid⟩ := hinv c hc1
      have haneq : ¬ a.id = id := by
        rw [haid]; exact hc2
      exact ⟨a, List.mem_filter.mpr ⟨ha, by simpa using haneq⟩, haid⟩
  · rw [if_neg hex] at h
    exact absurd (congrArg Prod.snd h) (by simp)

/-- C6 witness: deleting the only application (id 1) from a store that also
holds one of its configuration rows leaves the empty store; the GET and the
configuration listing then answer 404. -/
theorem delete_cascades_w :
    appGetById (⟨⟨[], 2⟩, [], 2⟩ : Db).apps 1 =
      .err 404 "Application not found" ∧
    configsGetByApplication ⟨⟨[], 2⟩, [], 2⟩ 1 none 1 10 =
      .err 404 "Application not found" := by
  have h := delete_cascades
    ⟨⟨[⟨1, "a", none, 0, 0⟩], 2⟩, [⟨1, 1, "k", some "v", "dev", 0, 0⟩], 2⟩ 1
    ⟨⟨[], 2⟩, [], 2⟩ (by decide)
  exact ⟨h.1, h.2.1 none 1 10⟩

/-- C1: the configuration upsert (`PUT .../config`) stores exactly the
supplied document — any stored config read back afterwards looks keys up in
the new document alone, so no key of the previous document survives unless
the new one has it — returns it with status 200, and is idempotent: a
second identical PUT leaves the store and the response unchanged. -/
theorem put_config_replaces_and_idempotent (store : MockConfigStore)
    (id : String) (doc : Json) :
    (putConfigHandler store id doc).1 id = some ⟨id, doc⟩ ∧
    (∀ cfg, (putConfigHandler store id doc).1 id = some cfg →
      ∀ k, cfg.config.objLookup k = doc.objLookup k) ∧
    (putConfigHandler store id doc).2 = (200, ⟨id, doc⟩) ∧
    putConfigHandler ((putConfigHandler store id doc).1) id doc =
      putConfigHandler store id doc := by
  have h1 : (putConfigHandler store id doc).1 id =
      some (⟨id, doc⟩ : ConfigurationResponse) := by
    simp [putConfigHandler]
  refine ⟨h1, ?_, rfl, ?_⟩
  · intro cfg hcfg k
    rw [h1] at hcfg
    cases hcfg
    rfl
  · refine Prod.ext (funext fun k => ?_) rfl
    by_cases hk : k = id <;> simp [putConfigHandler, hk]

/-- C1 witness: upserting a concrete document into the empty store. -/
theorem put_config_replaces_and_idempotent_w :
    (putConfigHandler (fun _ => none) "app"
        (Json.obj [("theme", Json.str "dark")])).1 "app" =
      some ⟨"app", Json.obj [("theme", Json.str "dark")]⟩ ∧
    (⟨"app", Json.obj [("theme", Json.str "dark")]⟩ :
        ConfigurationResponse).config.objLookup "timeout" =
      (Json.obj [("theme", Json.str "dark")]).objLookup "timeout" ∧
    putConfigHandler
        ((putConfigHandler (fun _ => none) "app"
          (Json.obj [("theme", Json.str "dark")])).1) "app"
        (Json.obj [("theme", Json.str "dark")]) =
      putConfigHandler (fun _ => none) "app"
        (Json.obj [("theme", Json.str "dark")]) := by
  have h := put_config_replaces_and_idempotent (fun _ => none) "app"
    (Json.obj [("theme", Json.str "dark")])
  exact ⟨h.1, h.2.1 ⟨"app", Json.obj [("theme", Json.str "dark")]⟩ h.1
    "timeout", h.2.2.2⟩

/-- C2: the document-shape upsert (modelled from the spec, the backend not
being under src/) fails with 404 NotFound and stores nothing when the
application id is unknown, and succeeds — fully storing the document — when
the application exists. -/
theorem spec_upsert_requires_application (apps : List String)
    (store : MockConfigStore) (id : String) (doc : Json) :
    (id ∉ apps → specUpsert apps store id doc =
      (store, .err 404 "Application not found")) ∧
    (id ∈ apps → (specUpsert apps store id doc).2 = .ok 200 ⟨id, doc⟩ ∧
      (specUpsert apps store id doc).1 id = some ⟨id, doc⟩) := by
  constructor
  · intro h
    simp [specUpsert, h]
  · intro h
    constructor <;> simp [specUpsert, h]

/-- C2 witness: with only application "a" registered, the upsert for "b" is
a 404 that leaves the store unchanged, while the upsert for "a" succeeds. -/
theorem spec_upsert_requires_application_w :
    specUpsert ["a"] (fun _ => none) "b" (Json.obj []) =
      ((fun _ => none), .err 404 "Application not found") ∧
    (specUpsert ["a"] (fun _ => none) "a" (Json.obj [])).2 =
      .ok 200 ⟨"a", Json.obj []⟩ := by
  have h1 := (spec_upsert_requires_application ["a"] (fun _ => none) "b"
    (Json.obj [])).1 (by decide)
  have h2 := (spec_upsert_requires_application ["a"] (fun _ => none) "a"
    (Json.obj [])).2 (by simp)
  exact ⟨h1, h2.1⟩

/-- C8: `ConfigClient.request` always returns a uniform result value: a
resolved response with a non-ok status becomes `success: false` carrying
the error body's `detail`; an ok response becomes `success: true` with the
parsed body (`undefined` data for 204); a thrown abort error becomes a
prefixed failure message, and every transport failure — any thrown value —
becomes some `success: false` with an error message. -/
theorem client_request_uniform {α : Type} (status : Nat)
    (errDetail : String) (body : α) (errName message : String) :
    (responseOk status = false →
      clientRequest (.resolved status errDetail body) =
        .failure errDetail) ∧
    (responseOk status = true → status ≠ 204 →
      clientRequest (.resolved status errDetail body) =
        .success (some body)) ∧
    clientRequest (.resolved 204 errDetail body) = .success none ∧
    clientRequest (FetchOutcome.thrown (α := α) "AbortError" message) =
      .failure ("Request aborted: " ++ message) ∧
    (∃ e, clientRequest (FetchOutcome.thrown (α := α) errName message) =
      .failure e) ∧
    clientRequest (FetchOutcome.thrownNonError : FetchOutcome α) =
      .failure "Network error" := by
  refine ⟨?_, ?_, ?_, ?_, ?_, rfl⟩
  · intro h
    simp [clientRequest, h]
  · intro h h204
    simp [clientRequest, h, h204]
  · simp [clientRequest, responseOk]
  · simp [clientRequest]
  · by_cases hc : (errName = "AbortError" || containsAborted message) = true
    · exact ⟨"Request aborted: " ++ message, by simp [clientRequest, hc]⟩
    · exact ⟨message, by simp [clientRequest, hc]⟩

/-- C8 witness: the uniform-result mapping at concrete outcomes — a 404
with a detail body, a 200, a 204, an abort, and a non-Error throw. -/
theorem client_request_uniform_w :
    clientRequest (.resolved 404 "Application not found" (0 : Nat)) =
      .failure "Application not found" ∧
    clientRequest (.resolved 200 "" (0 : Nat)) = .success (some 0) ∧
    clientRequest (.resolved 204 "" (0 : Nat)) = .success none ∧
    clientRequest (FetchOutcome.thrown (α := Nat) "AbortError" "timed out") =
      .failure ("Request aborted: " ++ "timed out") ∧
    clientRequest (FetchOutcome.thrownNonError : FetchOutcome Nat) =
      .failure "Network error" := by
  have h := client_request_uniform (α := Nat) 404 "Application not found"
    0 "TypeError" "failed to fetch"
  have h200 := client_request_uniform (α := Nat) 200 "" 0 "x" "y"
  exact ⟨h.1 (by decide), h200.2.1 (by decide) (by decide), h200.2.2.1,
    (client_request_uniform (α := Nat) 0 "" 0 "AbortError"
      "timed out").2.2.2.1, h.2.2.2.2.2⟩

/-- C7 counterexample: the demo server's create validation does not check
the charset — the name "a b" contains a space (not in `[A-Za-z0-9_-]`) yet
`POST /applications` passes validation, answers 201 and stores the row. -/
theorem create_validation_charset_cex :
    (postApplication ⟨[], 1⟩ 0 "a b" none).2 =
      .ok 201 ⟨1, "a b", none, 0, 0⟩ ∧
    ((postApplication ⟨[], 1⟩ 0 "a b" none).1).rows =
      [⟨1, "a b", none, 0, 0⟩] ∧
    isNameChar ' ' = false := by
  refine ⟨rfl, rfl, rfl⟩

/-- C7 amended: the length rule (1–255) is what the server-side
`createApplicationValidation` enforces — it accepts exactly the strings of
length 1 to 255, charset-violating ones included — while the charset rule
`[A-Za-z0-9_-]` is enforced only client-side by `CreateAppForm.validateForm`,
every name it accepts being nonempty and charset-only. -/
theorem create_validation_split (name : String) :
    (serverNameValid name = true ↔ 1 ≤ name.length ∧ name.length ≤ 255) ∧
    (uiNameValid name = true →
      name ≠ "" ∧ ∀ c ∈ name.data, isNameChar c = true) := by
  constructor
  · simp [serverNameValid]
  · intro h
    simp only [uiNameValid] at h
    split at h
    · cases h
    · simp only [Bool.and_eq_true, List.all_eq_true] at h
      refine ⟨?_, fun c hc => h.2 c hc⟩
      intro hemp
      have h1 := h.1
      rw [hemp] at h1
      simp at h1

/-- C7 amended witness: "web-app" passes both validators; its acceptance by
the UI validator yields the charset facts. -/
theorem create_validation_split_w :
    serverNameValid "web-app" = true ∧
    ("web-app" ≠ "" ∧ ∀ c ∈ "web-app".data, isNameChar c = true) := by
  have h := create_validation_split "web-app"
  exact ⟨h.1.mpr (by decide), h.2 (by rfl)⟩

/-- Closed form of `Math.ceil(N / L)` over naturals, stated on the
quotient-remainder decomposition. -/
theorem ceil_div_aux (L q r : Nat) (hL : 1 ≤ L) (hr : r < L) :
    (L * q + r + L - 1) / L = if r = 0 then q else q + 1 := by
  by_cases h0 : r = 0
  · subst h0
    rw [if_pos rfl]
    have he : L * q + 0 + L - 1 = L * q + (L - 1) := by omega
    rw [he, Nat.mul_add_div (by omega), Nat.div_eq_of_lt (by omega),
      Nat.add_zero]
  · rw [if_neg h0]
    have hm : L * (q + 1) = L * q + L := by ring
    have he : L * q + r + L - 1 = L * (q + 1) + (r - 1) := by omega
    rw [he, Nat.mul_add_div (by omega), Nat.div_eq_of_lt (by omega),
      Nat.add_zero]

/-- Closed form of `Math.ceil(N / L)` over naturals. -/
theorem ceil_div_eq (N L : Nat) (hL : 1 ≤ L) :
    (N + L - 1) / L = if N % L = 0 then N / L else N / L + 1 := by
  have hq : L * (N / L) + N % L = N := Nat.div_add_mod N L
  have hrL : N % L < L := Nat.mod_lt N (by omega)
  conv_lhs => rw [← hq]
  exact ceil_div_aux L (N / L) (N % L) hL hrL

/-- The ceiling of `N / L` is the least page count covering `N` items:
`N ≤ totalPages * L < N + L`. -/
theorem ceil_div_bounds (N L : Nat) (hL : 1 ≤ L) :
    N ≤ ((N + L - 1) / L) * L ∧ ((N + L - 1) / L) * L < N + L := by
  obtain ⟨q, r, hq, hr, hdiv, hmod⟩ :
      ∃ q r, L * q + r = N ∧ r < L ∧ N / L = q ∧ N % L = r :=
    ⟨N / L, N % L, Nat.div_add_mod N L, Nat.mod_lt N (by omega), rfl, rfl⟩
  rw [ceil_div_eq N L hL, hdiv, hmod]
  by_cases h0 : r = 0
  · rw [if_pos h0]
    have hcomm : q * L = L * q := Nat.mul_comm _ _
    omega
  · rw [if_neg h0]
    have hcomm : (q + 1) * L = L * q + L := by ring
    omega

/-- Size of the window the last page sees: `N mod L` items, or `L` when
`L` divides `N` (for `N ≥ 1`). -/
theorem last_page_len (N L : Nat) (hL : 1 ≤ L) (hN : 1 ≤ N) :
    min L (N - ((N + L - 1) / L - 1) * L) =
      if N % L = 0 then L else N % L := by
  obtain ⟨q, r, hq, hr, hdiv, hmod⟩ :
      ∃ q r, L * q + r = N ∧ r < L ∧ N / L = q ∧ N % L = r :=
    ⟨N / L, N % L, Nat.div_add_mod N L, Nat.mod_lt N (by omega), rfl, rfl⟩
  rw [ceil_div_eq N L hL, hdiv, hmod]
  by_cases h0 : r = 0
  · rw [if_pos h0, if_pos h0]
    cases q with
    | zero =>
      rw [Nat.mul_zero] at hq
      omega
    | succ q' =>
      rw [Nat.add_sub_cancel]
      have hmul : L * (q' + 1) = L * q' + L := by ring
      have hc : q' * L = L * q' := Nat.mul_comm _ _
      have hsub : N - q' * L = L := by omega
      rw [hsub, Nat.min_self]
  · rw [if_neg h0, if_neg h0, Nat.add_sub_cancel]
    have hc : q * L = L * q := Nat.mul_comm _ _
    have hsub : N - q * L = r := by omega
    rw [hsub]
    exact min_eq_right (by omega)

/-- C5: for page ≥ 1 and limit in [1,100], `getAll` returns items sorted by
creation time descending, reports `total` as the unfiltered row count, and
`totalPages` as the ceiling of total/limit (the least multiple of `limit`
covering `total`); when at least one row is stored, the last page holds
`total mod limit` items, or `limit` when the division is exact. -/
theorem get_all_pagination (t : AppsTable) (page limit : Nat)
    (hp : 1 ≤ page) (h1 : 1 ≤ limit) (h100 : limit ≤ 100) :
    List.Sorted createdDesc (appGetAll t page limit).data ∧
    (appGetAll t page limit).total = t.rows.length ∧
    (appGetAll t page limit).total ≤
      (appGetAll t page limit).totalPages * limit ∧
    (appGetAll t page limit).totalPages * limit <
      (appGetAll t page limit).total + limit ∧
    (1 ≤ t.rows.length →
      (appGetAll t ((appGetAll t page limit).totalPages) limit).data.length =
        if t.rows.length % limit = 0 then limit
        else t.rows.length % limit) := by
  refine ⟨?_, rfl, ?_, ?_, ?_⟩
  · have hs : List.Sorted createdDesc
        (List.insertionSort createdDesc t.rows) :=
      List.sorted_insertionSort createdDesc t.rows
    have hsub : List.Sublist (appGetAll t page limit).data
        (List.insertionSort createdDesc t.rows) := by
      simp only [appGetAll]
      exact (List.take_sublist _ _).trans (List.drop_sublist _ _)
    exact List.Pairwise.sublist hsub hs
  · have h := ceil_div_bounds t.rows.length limit h1
    simpa [appGetAll] using h.1
  · have h := ceil_div_bounds t.rows.length limit h1
    simpa [appGetAll] using h.2
  · intro hN
    have hlen : (List.insertionSort createdDesc t.rows).length =
        t.rows.length :=
      (List.perm_insertionSort createdDesc t.rows).length_eq
    simp only [appGetAll, List.length_take, List.length_drop, hlen]
    exact last_page_len t.rows.length limit h1 hN

/-- C5 witness: three rows listed with limit 2 — page 1 sorted descending,
total 3, totalPages 2, and the last page (page 2) holding 3 mod 2 = 1
item. -/
theorem get_all_pagination_w :
    List.Sorted createdDesc
      (appGetAll ⟨[⟨1, "a", none, 3, 3⟩, ⟨2, "b", none, 1, 1⟩,
        ⟨3, "c", none, 2, 2⟩], 4⟩ 1 2).data ∧
    (appGetAll ⟨[⟨1, "a", none, 3, 3⟩, ⟨2, "b", none, 1, 1⟩,
        ⟨3, "c", none, 2, 2⟩], 4⟩ 1 2).total = 3 ∧
    (appGetAll ⟨[⟨1, "a", none, 3, 3⟩, ⟨2, "b", none, 1, 1⟩,
        ⟨3, "c", none, 2, 2⟩], 4⟩ 1 2).totalPages = 2 ∧
    (appGetAll ⟨[⟨1, "a", none, 3, 3⟩, ⟨2, "b", none, 1, 1⟩,
        ⟨3, "c", none, 2, 2⟩], 4⟩ 2 2).data.length = 1 := by
  have h := get_all_pagination ⟨[⟨1, "a", none, 3, 3⟩, ⟨2, "b", none, 1, 1⟩,
    ⟨3, "c", none, 2, 2⟩], 4⟩ 1 2 (by decide) (by decide) (by decide)
  refine ⟨h.1, h.2.1, rfl, ?_⟩
  have h5 := h.2.2.2.2 (by decide)
  simpa using h5

end ConfigService
